import Mathlib

/-!
Shallow embedding of the Vaultpay escrow core.

The escrow logic of this repository lives in the SQL migration
(`create_transaction_with_escrow`, `update_transaction_status`,
`process_expired_transactions`, `generate_vid`, `generate_vtid`) plus the
table definitions of `users` and `transactions`.  We model:
  * `DECIMAL(12,2)` money amounts as `Int` (a fixed-point value in cents);
  * `TIMESTAMP` values as `Int` milliseconds, so `time_limit * INTERVAL
    '1 hour'` becomes `time_limit * hourMs`;
  * `UUID` keys as `Nat`;
  * the table rows as Lean structures and the database as two row lists;
  * a raised SQL exception as the `Except.error` branch (the PL/pgSQL
    functions run in one transaction, so an error leaves no state change);
  * `MD5(RANDOM()::TEXT)` through an arbitrary digest stream
    `digest : Nat → Nat`, printed in uppercase hexadecimal exactly as
    `UPPER(SUBSTRING(... FOR n))` yields `n` uppercase hex characters;
    the unbounded retry loop is given explicit fuel, with a dedicated
    `vtidGenerationFailed` marker for the (never reached in the source)
    out-of-fuel branch.
-/

namespace Vaultpay

/-- The four values allowed by the CHECK constraint on `transactions.status`. -/
inductive TxStatus
  | pending
  | accepted
  | completed
  | cancelled
deriving DecidableEq, Repr

/-- One element of the `conditions` JSONB payload: `{description, completed}`. -/
structure Condition where
  description : String
  completed : Bool
deriving DecidableEq, Repr

/-- A row of `public.users` (the columns the escrow core reads or writes). -/
structure UserRow where
  id : Nat
  vault_id : String
  balance : Int
  escrow_balance : Int
  unread_transactions : List Nat
deriving DecidableEq, Repr

/-- A row of `public.transactions`. -/
structure TxRow where
  id : Nat
  vtid : String
  sender_id : Nat
  receiver_id : Nat
  amount : Int
  status : TxStatus
  conditions : List Condition
  time_limit : Int
  created_at : Int
  accepted_at : Option Int
  completed_at : Option Int
  cancelled_at : Option Int
deriving DecidableEq, Repr

/-- The database state seen by the stored procedures. -/
structure DB where
  users : List UserRow
  transactions : List TxRow
deriving DecidableEq, Repr

/-- Errors raised by the stored procedures and by the table constraints. -/
inductive DBError
  | transactionNotFound
  | notAcceptedBeforeCompletion
  | invalidStatus
  | insufficientBalance
  | foreignKeyViolation
  | checkViolation
  | uniqueViolation
  | vtidGenerationFailed
deriving DecidableEq, Repr

/-- Milliseconds in `INTERVAL '1 hour'`. -/
def hourMs : Int := 3600000

/-- `SELECT * FROM users WHERE id = uid` (primary-key lookup). -/
def findUser (db : DB) (uid : Nat) : Option UserRow :=
  db.users.find? (fun u => u.id == uid)

/-- `SELECT * FROM transactions WHERE id = tid` (primary-key lookup). -/
def findTx (db : DB) (tid : Nat) : Option TxRow :=
  db.transactions.find? (fun t => t.id == tid)

/-- `EXISTS (SELECT 1 FROM users WHERE id = uid)`. -/
def userExists (db : DB) (uid : Nat) : Bool :=
  db.users.any (fun u => u.id == uid)

/-- `UPDATE users SET ... WHERE id = uid`, rows rewritten by `f`. -/
def updateUserRow (db : DB) (uid : Nat) (f : UserRow → UserRow) : DB :=
  { db with users := db.users.map (fun u => if u.id == uid then f u else u) }

/-- `UPDATE transactions SET ... WHERE id = tid`, rows rewritten by `f`. -/
def updateTxRow (db : DB) (tid : Nat) (f : TxRow → TxRow) : DB :=
  { db with transactions := db.transactions.map (fun t => if t.id == tid then f t else t) }

/-- The SQL function `update_transaction_status(p_transaction_id, p_new_status)`,
with `NOW()` passed in as `now`.  Mirrors the source branch by branch: a no-op
when the stored status already equals the requested one; the `accepted` and
`cancelled` branches carry no guard on the current status; only the
`completed` branch checks that the current status is `accepted`; the `ELSE`
branch (`pending` as target) raises `Invalid status`. -/
def update_transaction_status (db : DB) (p_transaction_id : Nat)
    (p_new_status : TxStatus) (now : Int) : Except DBError DB :=
  match findTx db p_transaction_id with
  | none => .error .transactionNotFound
  | some tr =>
    if tr.status = p_new_status then
      .ok db
    else
      match p_new_status with
      | .accepted =>
        let db1 := updateTxRow db p_transaction_id
          (fun t => { t with status := .accepted, accepted_at := some now })
        let db2 := updateUserRow db1 tr.sender_id
          (fun u => { u with unread_transactions := u.unread_transactions ++ [p_transaction_id] })
        .ok db2
      | .completed =>
        if tr.status ≠ .accepted then
          .error .notAcceptedBeforeCompletion
        else
          let db1 := updateTxRow db p_transaction_id
            (fun t => { t with status := .completed, completed_at := some now })
          let db2 := updateUserRow db1 tr.sender_id
            (fun u => { u with escrow_balance := u.escrow_balance - tr.amount })
          let db3 := updateUserRow db2 tr.receiver_id
            (fun u => { u with balance := u.balance + tr.amount })
          let db4 := updateUserRow db3 tr.receiver_id
            (fun u => { u with unread_transactions := u.unread_transactions ++ [p_transaction_id] })
          .ok db4
      | .cancelled =>
        let db1 := updateTxRow db p_transaction_id
          (fun t => { t with status := .cancelled, cancelled_at := some now })
        let db2 := updateUserRow db1 tr.sender_id
          (fun u => { u with balance := u.balance + tr.amount,
                             escrow_balance := u.escrow_balance - tr.amount })
        let notifyBoth : UserRow → UserRow := fun u =>
          if u.id == tr.sender_id || u.id == tr.receiver_id then
            { u with unread_transactions := u.unread_transactions ++ [p_transaction_id] }
          else u
        let db3 := { db2 with users := db2.users.map notifyBoth }
        .ok db3
      | .pending => .error .invalidStatus

/-- One hexadecimal digit as the uppercase character `MD5`/`UPPER` produce. -/
def hexChar (n : Nat) : Char :=
  if n < 10 then Char.ofNat (48 + n) else Char.ofNat (55 + n)

/-- The first `len` characters of `UPPER(MD5(...))` for digest value `v`:
a string of exactly `len` uppercase hexadecimal characters. -/
def hexStringOfLen (len : Nat) (v : Nat) : String :=
  String.mk ((List.range len).map (fun i => hexChar (v / 16 ^ i % 16)))

/-- The `LOOP ... EXIT WHEN NOT exists` retry pattern shared by
`generate_vid` and `generate_vtid`: draw candidate `k`, return it unless it
is already taken, else retry with the next draw.  The source loop is
unbounded; `fuel` makes the model total, `none` marking fuel exhaustion. -/
def genUniqueCode (candidate : Nat → String) (taken : String → Bool) :
    Nat → Nat → Option String
  | 0, _ => none
  | fuel + 1, k =>
    let c := candidate k
    if taken c then genUniqueCode candidate taken fuel (k + 1) else some c

/-- `EXISTS (SELECT 1 FROM users WHERE vault_id = code)`. -/
def vaultIdTaken (db : DB) (code : String) : Bool :=
  db.users.any (fun u => u.vault_id == code)

/-- `EXISTS (SELECT 1 FROM transactions WHERE vtid = code)`. -/
def vtidTaken (db : DB) (code : String) : Bool :=
  db.transactions.any (fun t => t.vtid == code)

/-- The SQL function `generate_vid()`: 8 uppercase hex characters of a fresh
digest, retried until the code collides with no stored `vault_id`. -/
def generate_vid (digest : Nat → Nat) (db : DB) (fuel start : Nat) : Option String :=
  genUniqueCode (fun k => hexStringOfLen 8 (digest k)) (vaultIdTaken db) fuel start

/-- The SQL function `generate_vtid()`: 12 uppercase hex characters of a
fresh digest, retried until the code collides with no stored `vtid`. -/
def generate_vtid (digest : Nat → Nat) (db : DB) (fuel start : Nat) : Option String :=
  genUniqueCode (fun k => hexStringOfLen 12 (digest k)) (vtidTaken db) fuel start

/-- The `IF sender_balance < p_amount` guard.  When the sender id matches no
row, `SELECT ... INTO` leaves `sender_balance` NULL and the SQL comparison
`NULL < p_amount` is not true, so the guard does not fire. -/
def balanceGuardFires (db : DB) (p_sender_id : Nat) (p_amount : Int) : Bool :=
  match (findUser db p_sender_id).map UserRow.balance with
  | some b => decide (b < p_amount)
  | none => false

/-- The SQL function `create_transaction_with_escrow`.  `now` stands for
`NOW()`, `newId` for the `uuid_generate_v4()` primary key of the inserted
row, and `digest`/`fuel` feed `generate_vtid`.  The INSERT is subject to the
`transactions` table constraints (sender/receiver foreign keys, `amount > 0`,
`sender_id != receiver_id`, primary-key and `vtid` uniqueness); a constraint
violation aborts the function, rolling back every prior write.  PostgreSQL
enforces the row CHECK constraints and the unique indexes at row insertion,
before the foreign-key AFTER-ROW triggers, so the checks come in that
order here. -/
def create_transaction_with_escrow (digest : Nat → Nat) (fuel : Nat) (db : DB)
    (p_sender_id p_receiver_id : Nat) (p_amount : Int)
    (p_conditions : List Condition) (p_time_limit : Int) (now : Int)
    (newId : Nat) : Except DBError (DB × TxRow) :=
  if balanceGuardFires db p_sender_id p_amount then
    .error .insufficientBalance
  else
    match generate_vtid digest db fuel 0 with
    | none => .error .vtidGenerationFailed
    | some new_vtid =>
      if ¬ (0 < p_amount) then .error .checkViolation
      else if p_sender_id == p_receiver_id then .error .checkViolation
      else if db.transactions.any (fun t => t.id == newId) then .error .uniqueViolation
      else if ¬ userExists db p_sender_id then .error .foreignKeyViolation
      else if ¬ userExists db p_receiver_id then .error .foreignKeyViolation
      else
        let db1 := updateUserRow db p_sender_id
          (fun u => { u with balance := u.balance - p_amount,
                             escrow_balance := u.escrow_balance + p_amount })
        let newTx : TxRow :=
          { id := newId, vtid := new_vtid, sender_id := p_sender_id,
            receiver_id := p_receiver_id, amount := p_amount, status := .pending,
            conditions := p_conditions, time_limit := p_time_limit,
            created_at := now, accepted_at := none, completed_at := none,
            cancelled_at := none }
        let db2 := { db1 with transactions := db1.transactions ++ [newTx] }
        let db3 := updateUserRow db2 p_receiver_id
          (fun u => { u with unread_transactions := u.unread_transactions ++ [newId] })
        .ok (db3, newTx)

/-- The cursor predicate of `process_expired_transactions`: `status =
'pending' AND created_at + time_limit * INTERVAL '1 hour' < NOW()`. -/
def isExpiredPendingTx (now : Int) (t : TxRow) : Bool :=
  t.status == .pending && decide (t.created_at + t.time_limit * hourMs < now)

/-- The SQL function `process_expired_transactions()`: run the cursor over
the expired pending rows and call `update_transaction_status(id,
'cancelled')` on each; a raised error aborts the whole sweep. -/
def process_expired_transactions (db : DB) (now : Int) : Except DBError DB :=
  (db.transactions.filter (isExpiredPendingTx now)).foldlM
    (fun acc t => update_transaction_status acc t.id .cancelled now) db

/-- One client- or scheduler-initiated invocation of an escrow-core
procedure, with all nondeterministic inputs (clock, uuid, digest) recorded. -/
inductive Op
  | create (digest : Nat → Nat) (fuel : Nat) (sender receiver : Nat)
      (amount : Int) (conds : List Condition) (timeLimit : Int)
      (now : Int) (newId : Nat)
  | updateStatus (tid : Nat) (st : TxStatus) (now : Int)
  | sweep (now : Int)

/-- Apply one operation; a raised error rolls the whole call back, so the
state is unchanged on the error branch. -/
def applyOp (db : DB) : Op → DB
  | .create digest fuel s r a conds tl now newId =>
    match create_transaction_with_escrow digest fuel db s r a conds tl now newId with
    | .ok (db1, _) => db1
    | .error _ => db
  | .updateStatus tid st now =>
    match update_transaction_status db tid st now with
    | .ok db1 => db1
    | .error _ => db
  | .sweep now =>
    match process_expired_transactions db now with
    | .ok db1 => db1
    | .error _ => db

/-- Run a sequence of escrow-core operations from a starting state. -/
def run (db : DB) (ops : List Op) : DB :=
  ops.foldl applyOp db

/-- A state is reachable when some operation sequence produces it. -/
def ReachableFrom (db0 db1 : DB) : Prop :=
  ∃ ops : List Op, run db0 ops = db1

/-- Sum of `amount` over the transactions a user currently backs with
escrow: those with the user as sender in `pending` or `accepted` status. -/
def outstandingFor (db : DB) (uid : Nat) : Int :=
  ((db.transactions.filter
      (fun t => t.sender_id == uid &&
        (t.status == TxStatus.pending || t.status == TxStatus.accepted))).map
    TxRow.amount).sum

/-- The spec's balance invariant: every user's escrow balance equals their
outstanding escrow sum and no balance is negative. -/
def escrowInvariant (db : DB) : Prop :=
  ∀ u ∈ db.users,
    u.escrow_balance = outstandingFor db u.id ∧ 0 ≤ u.balance ∧ 0 ≤ u.escrow_balance

instance (db : DB) : Decidable (escrowInvariant db) := by
  unfold escrowInvariant
  infer_instance

/-- `MIN_CONDITIONS` of the client transaction form (`app/modal.tsx`). -/
def MIN_CONDITIONS : Nat := 1

/-- The client-side `validateTransaction` of `app/modal.tsx`: reject fewer
than `MIN_CONDITIONS` conditions, then reject a time limit that does not
parse to an integer of at least 1.  `timeLimit` is the parsed value,
`none` standing for `isNaN(parseInt(...))`. -/
def validateTransaction (conditions : List Condition) (timeLimit : Option Int) : Bool :=
  if conditions.length < MIN_CONDITIONS then false
  else
    match timeLimit with
    | none => false
    | some n => if n < 1 then false else true

/-- A fresh sender as created by the schema defaults (balance 1000.00). -/
def userA : UserRow :=
  { id := 10, vault_id := "AAAAAAAA", balance := 1000, escrow_balance := 0,
    unread_transactions := [] }

/-- A fresh receiver as created by the schema defaults. -/
def userB : UserRow :=
  { id := 20, vault_id := "BBBBBBBB", balance := 1000, escrow_balance := 0,
    unread_transactions := [] }

/-- An initial state: two schema-default users, no transactions. -/
def initDB : DB := { users := [userA, userB], transactions := [] }

/-- A transaction of 500 from `userA` to `userB` that already ran to
completion (escrow released to the receiver). -/
def completedTx : TxRow :=
  { id := 1, vtid := "CCCCCCCCCCCC", sender_id := 10, receiver_id := 20,
    amount := 500, status := .completed,
    conditions := [{ description := "delivered", completed := true }],
    time_limit := 12, created_at := 0, accepted_at := some hourMs,
    completed_at := some (2 * hourMs), cancelled_at := none }

/-- The state after `completedTx` ran to completion: the sender paid 500 out
of escrow, the receiver holds it. -/
def dbCompleted : DB :=
  { users :=
      [ { userA with balance := 500 },
        { userB with balance := 1500 } ],
    transactions := [completedTx] }

/-- A fixed digest stream for concrete runs of the generator. -/
def demoDigest : Nat → Nat := fun _ => 0

/-- Create 500 in escrow, accept, complete, then cancel the already
completed transaction: the sequence the terminal-state guard should stop. -/
def demoOps : List Op :=
  [ .create demoDigest 1 10 20 500
      [{ description := "delivered", completed := true }] 12 0 1,
    .updateStatus 1 .accepted 1000,
    .updateStatus 1 .completed 2000,
    .updateStatus 1 .cancelled 3000 ]

/-- C1.  Terminal-state closure fails in the code: on a transaction whose
current status is 'completed', `update_transaction_status(id, 'cancelled')`
does not fail with InvalidTransition — the `cancelled` branch carries no
guard on the current status, so the call succeeds, rewrites the status to
'cancelled', credits the sender's balance a second time and drives the
sender's escrow balance negative. -/
theorem update_transaction_status_cancel_after_completion_mutates :
    (update_transaction_status dbCompleted 1 .cancelled (3 * hourMs)).map
        (fun db => ((findTx db 1).map TxRow.status,
                    (findUser db 10).map (fun u => (u.balance, u.escrow_balance))))
      = .ok (some .cancelled, some (1000, -500)) := by
  rfl

/-- C2.  The accept guard is missing in the code: on a transaction whose
current status is 'completed', `update_transaction_status(id, 'accepted')`
does not fail with InvalidTransition — the `accepted` branch checks nothing
about the current status, so the call succeeds and resets the status to
'accepted' with a fresh `accepted_at`. -/
theorem update_transaction_status_accept_after_completion_succeeds :
    (update_transaction_status dbCompleted 1 .accepted (3 * hourMs)).map
        (fun db => (findTx db 1).map (fun t => (t.status, t.accepted_at)))
      = .ok (some (.accepted, some (3 * hourMs))) := by
  rfl

/-- C3.  The escrow-balance invariant is not preserved by the reachable
states: starting from a schema-default initial state (where the invariant
holds), the operation sequence create → accept → complete → cancel leaves
the sender with escrow balance −500 while the sum over their pending or
accepted transactions is 0, violating both the sum equation and
non-negativity. -/
theorem escrow_invariant_violated_by_cancel_after_completion :
    escrowInvariant initDB ∧
    ReachableFrom initDB (run initDB demoOps) ∧
    ¬ escrowInvariant (run initDB demoOps) ∧
    (findUser (run initDB demoOps) 10).map
        (fun u => (u.balance, u.escrow_balance)) = some (1000, -500) ∧
    outstandingFor (run initDB demoOps) 10 = 0 := by
  refine ⟨by decide, ⟨demoOps, rfl⟩, by decide, by decide, by decide⟩

lemma userExists_eq_false_of_findUser_none (db : DB) (uid : Nat)
    (h : findUser db uid = none) : userExists db uid = false := by
  unfold findUser at h
  unfold userExists
  rw [List.find?_eq_none] at h
  by_contra hx
  rw [Bool.not_eq_false, List.any_eq_true] at hx
  obtain ⟨u, hu, hid⟩ := hx
  exact h u hu hid

/-- C7.  Insufficient funds fail atomically: when the sender row exists and
its balance is strictly below the requested amount, the balance guard fires
and the call raises `Insufficient balance`; the `Except.error` result
carries no state, i.e. no balance, escrow, transaction or unread-list write
survives. -/
theorem create_transaction_with_escrow_insufficient_funds_no_effect
    (digest : Nat → Nat) (fuel : Nat) (db : DB) (s r : Nat) (a : Int)
    (conds : List Condition) (tl now : Int) (nid : Nat) (u : UserRow)
    (hfind : findUser db s = some u) (hlt : u.balance < a) :
    create_transaction_with_escrow digest fuel db s r a conds tl now nid
      = .error .insufficientBalance := by
  have hguard : balanceGuardFires db s a = true := by
    unfold balanceGuardFires
    rw [hfind]
    simpa using hlt
  simp [create_transaction_with_escrow, hguard]

/-- Witness for C7: a schema-default user with balance 1000 asking to place
2000 in escrow is rejected with the insufficient-balance error. -/
theorem create_insufficient_funds_witness :
    findUser initDB 10 = some userA ∧ userA.balance < 2000 ∧
    create_transaction_with_escrow demoDigest 1 initDB 10 20 2000 [] 12 0 1
      = .error .insufficientBalance := by
  refine ⟨rfl, by decide, ?_⟩
  exact create_transaction_with_escrow_insufficient_funds_no_effect
    demoDigest 1 initDB 10 20 2000 [] 12 0 1 userA rfl (by decide)

/-- The state with no row for sender 10, used for C10. -/
def dbNoSender : DB := { users := [userB], transactions := [] }

/-- C10 counterexample.  The claim says an unknown-sender call "fails only
later, at the foreign-key level of the insert"; but with a non-positive
amount the INSERT dies on the `amount > 0` CHECK constraint (row CHECKs are
enforced before the foreign-key triggers), not on the foreign key.  The
never-insufficient-balance half of the claim does hold here. -/
theorem unknown_sender_zero_amount_check_violation :
    findUser dbNoSender 10 = none ∧
    create_transaction_with_escrow demoDigest 1 dbNoSender 10 20 0 [] 12 0 1
      = .error .checkViolation ∧
    create_transaction_with_escrow demoDigest 1 dbNoSender 10 20 0 [] 12 0 1
      ≠ .error .foreignKeyViolation ∧
    create_transaction_with_escrow demoDigest 1 dbNoSender 10 20 0 [] 12 0 1
      ≠ .error .insufficientBalance := by
  refine ⟨rfl, rfl, ?_, ?_⟩
  · intro h
    rw [show create_transaction_with_escrow demoDigest 1 dbNoSender 10 20 0 [] 12 0 1
          = .error .checkViolation from rfl] at h
    simp at h
  · intro h
    rw [show create_transaction_with_escrow demoDigest 1 dbNoSender 10 20 0 [] 12 0 1
          = .error .checkViolation from rfl] at h
    simp at h

/-- C10 amended.  Unknown sender at creation: when the sender id matches no
user row, `SELECT ... INTO` leaves the balance NULL, `NULL < p_amount` is
not true, and the insufficient-balance guard never fires — for any amount
the call is never rejected with 'Insufficient balance'.  It proceeds to the
INSERT; when the row itself passes the table's row constraints (`amount >
0`, `sender_id != receiver_id`, a fresh primary key) the failure is the
`sender_id REFERENCES users(id)` foreign key, while a row violating a CHECK
or unique constraint fails on that constraint instead (row CHECKs and
unique indexes are enforced before the foreign-key triggers). -/
theorem create_unknown_sender_skips_balance_guard
    (digest : Nat → Nat) (fuel : Nat) (db : DB) (s r : Nat) (a : Int)
    (conds : List Condition) (tl now : Int) (nid : Nat)
    (hnone : findUser db s = none) :
    create_transaction_with_escrow digest fuel db s r a conds tl now nid
        ≠ .error .insufficientBalance ∧
    ∀ v, generate_vtid digest db fuel 0 = some v →
      0 < a → (s == r) = false →
      db.transactions.any (fun t => t.id == nid) = false →
      create_transaction_with_escrow digest fuel db s r a conds tl now nid
        = .error .foreignKeyViolation := by
  have hguard : balanceGuardFires db s a = false := by
    unfold balanceGuardFires
    rw [hnone]
    rfl
  have hexists := userExists_eq_false_of_findUser_none db s hnone
  constructor
  · unfold create_transaction_with_escrow
    rw [hguard]
    cases hgen : generate_vtid digest db fuel 0 with
    | none => simp
    | some v =>
      split_ifs <;> simp_all
  · intro v hgen ha hne hid
    unfold create_transaction_with_escrow
    rw [hguard, hgen]
    simp [ha, hne, hid, hexists]

/-- Witness for C10: with no row for sender 10, creation of an arbitrarily
large transaction is not rejected as insufficient balance but by the
foreign key of the insert. -/
theorem create_unknown_sender_witness :
    findUser dbNoSender 10 = none ∧
    (create_transaction_with_escrow demoDigest 1 dbNoSender 10 20 999999 [] 12 0 1
        ≠ .error .insufficientBalance ∧
     ∀ v, generate_vtid demoDigest dbNoSender 1 0 = some v →
      (0 : Int) < 999999 → ((10 : Nat) == 20) = false →
      dbNoSender.transactions.any (fun t => t.id == 1) = false →
      create_transaction_with_escrow demoDigest 1 dbNoSender 10 20 999999 [] 12 0 1
        = .error .foreignKeyViolation) := by
  refine ⟨rfl, ?_⟩
  exact create_unknown_sender_skips_balance_guard
    demoDigest 1 dbNoSender 10 20 999999 [] 12 0 1 rfl

/-- Uppercase alphanumeric characters: decimal digits and capital letters. -/
def isUpperAlnumChar (c : Char) : Bool :=
  (decide ('0' ≤ c) && decide (c ≤ '9')) || (decide ('A' ≤ c) && decide (c ≤ 'Z'))

lemma hexChar_upperAlnum : ∀ n, n < 16 → isUpperAlnumChar (hexChar n) = true := by
  decide

lemma hexStringOfLen_length (len v : Nat) : (hexStringOfLen len v).length = len := by
  simp [hexStringOfLen, String.length]

lemma hexStringOfLen_chars (len v : Nat) :
    (hexStringOfLen len v).toList.all isUpperAlnumChar = true := by
  rw [List.all_eq_true]
  intro c hc
  simp only [hexStringOfLen, String.toList, List.mem_map, List.mem_range] at hc
  obtain ⟨i, _, rfl⟩ := hc
  exact hexChar_upperAlnum _ (Nat.mod_lt _ (by norm_num))

lemma genUniqueCode_spec (candidate : Nat → String) (taken : String → Bool) :
    ∀ (fuel start : Nat) (code : String),
      genUniqueCode candidate taken fuel start = some code →
      taken code = false ∧
      ∃ k, k < fuel ∧ code = candidate (start + k) ∧
        ∀ j, j < k → taken (candidate (start + j)) = true := by
  intro fuel
  induction fuel with
  | zero => intro start code h; cases h
  | succ n ih =>
    intro start code h
    simp only [genUniqueCode] at h
    split at h
    · next ht =>
      obtain ⟨hfree, k, hk, hcode, hprev⟩ := ih (start + 1) code h
      refine ⟨hfree, k + 1, by omega, ?_, ?_⟩
      · have harith : start + 1 + k = start + (k + 1) := by omega
        rw [hcode, harith]
      · intro j hj
        cases j with
        | zero => simpa using ht
        | succ j' =>
          have harith : start + (j' + 1) = start + 1 + j' := by omega
          rw [harith]
          exact hprev j' (by omega)
    · next ht =>
      injection h with hcode
      refine ⟨?_, 0, by omega, by simp [hcode], by omega⟩
      rw [← hcode]
      exact Bool.not_eq_true _ ▸ eq_false_of_ne_true ht

/-- C9.  Identifier generation: whenever `generate_vid` returns a code, it
is 8 characters, every character is an uppercase alphanumeric (in fact an
uppercase hex digit), it differs from every stored `vault_id`, and it is the
first candidate of the retry loop that does not collide (every earlier draw
collided); `generate_vtid` behaves the same with 12 characters against the
stored `vtid` column.  The loop itself is unbounded in the source; the fuel
index only truncates the model. -/
theorem generate_vid_vtid_unique_uppercase_codes :
    (∀ (digest : Nat → Nat) (db : DB) (fuel start : Nat) (code : String),
       generate_vid digest db fuel start = some code →
       code.length = 8 ∧ code.toList.all isUpperAlnumChar = true ∧
       (∀ u ∈ db.users, u.vault_id ≠ code) ∧
       ∃ k, k < fuel ∧ code = hexStringOfLen 8 (digest (start + k)) ∧
         ∀ j, j < k → vaultIdTaken db (hexStringOfLen 8 (digest (start + j))) = true) ∧
    (∀ (digest : Nat → Nat) (db : DB) (fuel start : Nat) (code : String),
       generate_vtid digest db fuel start = some code →
       code.length = 12 ∧ code.toList.all isUpperAlnumChar = true ∧
       (∀ t ∈ db.transactions, t.vtid ≠ code) ∧
       ∃ k, k < fuel ∧ code = hexStringOfLen 12 (digest (start + k)) ∧
         ∀ j, j < k → vtidTaken db (hexStringOfLen 12 (digest (start + j))) = true) := by
  constructor
  · intro digest db fuel start code h
    obtain ⟨hfree, k, hk, hcode, hprev⟩ :=
      genUniqueCode_spec (fun k => hexStringOfLen 8 (digest k)) (vaultIdTaken db)
        fuel start code h
    refine ⟨by rw [hcode]; exact hexStringOfLen_length 8 _,
            by rw [hcode]; exact hexStringOfLen_chars 8 _, ?_, k, hk, hcode, hprev⟩
    intro u hu heq
    have htaken : vaultIdTaken db code = true := by
      unfold vaultIdTaken
      rw [List.any_eq_true]
      exact ⟨u, hu, by simp [heq]⟩
    rw [htaken] at hfree
    cases hfree
  · intro digest db fuel start code h
    obtain ⟨hfree, k, hk, hcode, hprev⟩ :=
      genUniqueCode_spec (fun k => hexStringOfLen 12 (digest k)) (vtidTaken db)
        fuel start code h
    refine ⟨by rw [hcode]; exact hexStringOfLen_length 12 _,
            by rw [hcode]; exact hexStringOfLen_chars 12 _, ?_, k, hk, hcode, hprev⟩
    intro t ht heq
    have htaken : vtidTaken db code = true := by
      unfold vtidTaken
      rw [List.any_eq_true]
      exact ⟨t, ht, by simp [heq]⟩
    rw [htaken] at hfree
    cases hfree

/-- Witness for C9: the identity digest against the two-user initial state
produces the concrete codes and the theorem yields their properties. -/
theorem generate_codes_witness :
    (generate_vid (fun k => k) initDB 1 0 = some "00000000" ∧
     ("00000000" : String).length = 8 ∧
     ("00000000" : String).toList.all isUpperAlnumChar = true ∧
     (∀ u ∈ initDB.users, u.vault_id ≠ "00000000") ∧
     ∃ k, k < 1 ∧ "00000000" = hexStringOfLen 8 ((fun k => k) (0 + k)) ∧
       ∀ j, j < k → vaultIdTaken initDB (hexStringOfLen 8 ((fun k => k) (0 + j))) = true) ∧
    (generate_vtid (fun k => k) initDB 1 0 = some "000000000000" ∧
     ("000000000000" : String).length = 12 ∧
     ("000000000000" : String).toList.all isUpperAlnumChar = true ∧
     (∀ t ∈ initDB.transactions, t.vtid ≠ "000000000000") ∧
     ∃ k, k < 1 ∧ "000000000000" = hexStringOfLen 12 ((fun k => k) (0 + k)) ∧
       ∀ j, j < k → vtidTaken initDB (hexStringOfLen 12 ((fun k => k) (0 + j))) = true) := by
  constructor
  · exact ⟨by decide,
      generate_vid_vtid_unique_uppercase_codes.1 (fun k => k) initDB 1 0 "00000000" (by decide)⟩
  · exact ⟨by decide,
      generate_vid_vtid_unique_uppercase_codes.2 (fun k => k) initDB 1 0 "000000000000" (by decide)⟩

/-- C8 counterexample.  The claim says a create call with empty conditions
fails with InvalidArgument before any mutation; in the code
`create_transaction_with_escrow` never inspects `p_conditions`, so the call
succeeds, stores `conditions = []` and debits the sender. -/
theorem create_transaction_with_escrow_accepts_empty_conditions :
    (create_transaction_with_escrow demoDigest 1 initDB 10 20 100 [] 12 0 1).isOk = true ∧
    (create_transaction_with_escrow demoDigest 1 initDB 10 20 100 [] 12 0 1).map
        (fun p => (p.2.conditions, (findUser p.1 10).map UserRow.balance))
      = .ok ([], some 900) := by
  exact ⟨rfl, rfl⟩

/-- C8 amended.  The non-empty-conditions rule lives in the client, not the
stored procedure: `validateTransaction` (app/modal.tsx) returns false for an
empty conditions list, blocking `handleSendMoney` before any call, while
`create_transaction_with_escrow` itself accepts empty conditions whenever
its other guards pass, inserting the record with `conditions = []`. -/
theorem empty_conditions_client_side_rejection :
    (∀ tl, validateTransaction [] tl = false) ∧
    ∀ (digest : Nat → Nat) (fuel : Nat) (db : DB) (s r : Nat) (a : Int)
      (tl now : Int) (nid : Nat) (v : String),
      balanceGuardFires db s a = false →
      generate_vtid digest db fuel 0 = some v →
      userExists db s = true →
      userExists db r = true →
      0 < a →
      (s == r) = false →
      db.transactions.any (fun t => t.id == nid) = false →
      ∃ db1 tx,
        create_transaction_with_escrow digest fuel db s r a [] tl now nid
            = .ok (db1, tx) ∧
        tx.conditions = [] := by
  constructor
  · intro tl
    rfl
  · intro digest fuel db s r a tl now nid v hguard hgen hs hr ha hne hid
    unfold create_transaction_with_escrow
    rw [hguard, hgen]
    simp only [hs, hr, ha, hne, hid]
    simp
    exact ⟨_, _, ⟨rfl, rfl⟩, rfl⟩

/-- Witness for C8: the concrete empty-conditions call that the client-side
validation would have blocked goes through the stored procedure. -/
theorem empty_conditions_witness :
    validateTransaction [] (some 12) = false ∧
    ∃ db1 tx,
      create_transaction_with_escrow demoDigest 1 initDB 10 20 100 [] 12 0 1
          = .ok (db1, tx) ∧
      tx.conditions = [] := by
  refine ⟨empty_conditions_client_side_rejection.1 (some 12), ?_⟩
  exact empty_conditions_client_side_rejection.2 demoDigest 1 initDB 10 20 100 12 0 1
    "000000000000" (by decide) (by decide) (by decide) (by decide) (by decide)
    (by decide) (by decide)

/-- Projection to the fields the balance claims speak about. -/
def balanceTriple (u : UserRow) : Nat × Int × Int :=
  (u.id, u.balance, u.escrow_balance)

/-- A transaction accepted but with its single condition still incomplete. -/
def acceptedTxIncomplete : TxRow :=
  { id := 1, vtid := "CCCCCCCCCCCC", sender_id := 10, receiver_id := 20,
    amount := 500, status := .accepted,
    conditions := [{ description := "delivered", completed := false }],
    time_limit := 12, created_at := 0, accepted_at := some hourMs,
    completed_at := none, cancelled_at := none }

/-- The state holding `acceptedTxIncomplete` with the matching escrow. -/
def dbAccepted : DB :=
  { users :=
      [ { userA with balance := 500, escrow_balance := 500 },
        userB ],
    transactions := [acceptedTxIncomplete] }

/-- C5 counterexample.  The claim requires every condition to be completed
before `update_transaction_status(id, 'completed')` succeeds; the code
checks only that the current status is 'accepted', so completion goes
through with an incomplete condition. -/
theorem completion_succeeds_with_incomplete_conditions :
    dbAccepted.transactions.map (fun t => t.conditions.all Condition.completed)
      = [false] ∧
    (update_transaction_status dbAccepted 1 .completed (2 * hourMs)).map
        (fun db => ((findTx db 1).map TxRow.status,
                    (findUser db 10).map (fun u => (u.balance, u.escrow_balance)),
                    (findUser db 20).map (fun u => (u.balance, u.escrow_balance))))
      = .ok (some .completed, some (500, 0), some (1500, 0)) := by
  exact ⟨rfl, rfl⟩

/-- Result state of the `completed` branch of `update_transaction_status`:
mark the row completed, debit the sender's escrow, credit the receiver's
balance, notify the receiver. -/
def completedApplied (db : DB) (tid : Nat) (tr : TxRow) (now : Int) : DB :=
  updateUserRow (updateUserRow (updateUserRow (updateTxRow db tid
    (fun t => { t with status := .completed, completed_at := some now }))
    tr.sender_id (fun u => { u with escrow_balance := u.escrow_balance - tr.amount }))
    tr.receiver_id (fun u => { u with balance := u.balance + tr.amount }))
    tr.receiver_id (fun u => { u with unread_transactions := u.unread_transactions ++ [tid] })

lemma update_completed_eq (db : DB) (tid : Nat) (now : Int) (tr : TxRow)
    (hfind : findTx db tid = some tr) (hst : tr.status = .accepted) :
    update_transaction_status db tid .completed now
      = .ok (completedApplied db tid tr now) := by
  simp only [update_transaction_status, hfind]
  rw [if_neg (by simp [hst])]
  rw [if_neg (by simp [hst])]
  rfl

lemma completedApplied_transactions (db : DB) (tid : Nat) (tr : TxRow) (now : Int) :
    (completedApplied db tid tr now).transactions
      = db.transactions.map
          (fun t => if t.id == tid then
            { t with status := .completed, completed_at := some now } else t) := by
  simp [completedApplied, updateUserRow, updateTxRow]

lemma completedApplied_users_triple (db : DB) (tid : Nat) (tr : TxRow) (now : Int) :
    (completedApplied db tid tr now).users.map balanceTriple
      = db.users.map (fun u => (u.id,
          u.balance + (if u.id == tr.receiver_id then tr.amount else 0),
          u.escrow_balance - (if u.id == tr.sender_id then tr.amount else 0))) := by
  simp only [completedApplied, updateUserRow, updateTxRow, List.map_map]
  apply List.map_congr_left
  intro u _
  by_cases hs : (u.id == tr.sender_id) = true <;>
    by_cases hr : (u.id == tr.receiver_id) = true <;>
      simp [balanceTriple, Function.comp, hs, hr]

/-- C5 amended.  `update_transaction_status(id, 'completed')` succeeds
exactly when the stored status is 'accepted' — the conditions are never
inspected (the all-conditions check lives in the client's
`handleMarkCondition`).  On success it rewrites the row to status
'completed' with `completed_at = now` (all other row fields unchanged) and
moves `amount` out of the sender's escrow and into the receiver's balance;
from 'pending' or 'cancelled' it fails with no effect; re-applying
'completed' to a completed transaction is a no-op. -/
theorem update_transaction_status_completed_characterization
    (db : DB) (tid : Nat) (now : Int) (tr : TxRow)
    (hfind : findTx db tid = some tr) :
    (tr.status = .completed →
      update_transaction_status db tid .completed now = .ok db) ∧
    (tr.status = .pending ∨ tr.status = .cancelled →
      update_transaction_status db tid .completed now
        = .error .notAcceptedBeforeCompletion) ∧
    (tr.status = .accepted →
      ∃ db1, update_transaction_status db tid .completed now = .ok db1 ∧
        db1.transactions
          = db.transactions.map (fun t => if t.id == tid then
              { t with status := .completed, completed_at := some now } else t) ∧
        db1.users.map balanceTriple
          = db.users.map (fun u => (u.id,
              u.balance + (if u.id == tr.receiver_id then tr.amount else 0),
              u.escrow_balance - (if u.id == tr.sender_id then tr.amount else 0)))) := by
  refine ⟨?_, ?_, ?_⟩
  · intro hst
    simp [update_transaction_status, hfind, hst]
  · intro hst
    have h1 : tr.status ≠ TxStatus.completed := by
      rcases hst with h | h <;> simp [h]
    have h2 : tr.status ≠ TxStatus.accepted := by
      rcases hst with h | h <;> simp [h]
    simp [update_transaction_status, hfind, h1, h2]
  · intro hst
    exact ⟨completedApplied db tid tr now, update_completed_eq db tid now tr hfind hst,
      completedApplied_transactions db tid tr now,
      completedApplied_users_triple db tid tr now⟩

/-- Witness for C5: the characterization applied to the concrete accepted
transaction with an incomplete condition. -/
theorem completed_characterization_witness :
    (acceptedTxIncomplete.status = .completed →
      update_transaction_status dbAccepted 1 .completed (2 * hourMs) = .ok dbAccepted) ∧
    (acceptedTxIncomplete.status = .pending ∨ acceptedTxIncomplete.status = .cancelled →
      update_transaction_status dbAccepted 1 .completed (2 * hourMs)
        = .error .notAcceptedBeforeCompletion) ∧
    (acceptedTxIncomplete.status = .accepted →
      ∃ db1, update_transaction_status dbAccepted 1 .completed (2 * hourMs) = .ok db1 ∧
        db1.transactions
          = dbAccepted.transactions.map (fun t => if t.id == 1 then
              { t with status := .completed, completed_at := some (2 * hourMs) } else t) ∧
        db1.users.map balanceTriple
          = dbAccepted.users.map (fun u => (u.id,
              u.balance + (if u.id == acceptedTxIncomplete.receiver_id
                           then acceptedTxIncomplete.amount else 0),
              u.escrow_balance - (if u.id == acceptedTxIncomplete.sender_id
                                  then acceptedTxIncomplete.amount else 0)))) := by
  exact update_transaction_status_completed_characterization
    dbAccepted 1 (2 * hourMs) acceptedTxIncomplete rfl

/-- Per-row user effect of a successful creation: the sender's balance
moves into escrow, then the receiver's unread list gains the new id; every
other field of every user is untouched. -/
def createUserEffect (s r : Nat) (a : Int) (nid : Nat) (u : UserRow) : UserRow :=
  let u1 := if u.id == s then
    { u with balance := u.balance - a, escrow_balance := u.escrow_balance + a } else u
  if u1.id == r then
    { u1 with unread_transactions := u1.unread_transactions ++ [nid] } else u1

/-- C6.  Creation effects: a successful `create_transaction_with_escrow`
returns the inserted 'pending' record carrying the requested amount,
conditions and time limit under a freshly generated VTID colliding with no
stored one, appends that record to the transactions table, debits the
sender's balance by the amount into the sender's escrow, and appends the
new id to the receiver's unread list, changing nothing else about any
user. -/
theorem create_transaction_with_escrow_success_effects
    (digest : Nat → Nat) (fuel : Nat) (db : DB) (s r : Nat) (a : Int)
    (conds : List Condition) (tl now : Int) (nid : Nat) (db1 : DB) (tx : TxRow)
    (h : create_transaction_with_escrow digest fuel db s r a conds tl now nid
          = .ok (db1, tx)) :
    tx.id = nid ∧ tx.sender_id = s ∧ tx.receiver_id = r ∧ tx.amount = a ∧
    tx.status = .pending ∧ tx.conditions = conds ∧ tx.time_limit = tl ∧
    tx.created_at = now ∧ tx.accepted_at = none ∧
    generate_vtid digest db fuel 0 = some tx.vtid ∧
    (∀ t ∈ db.transactions, t.vtid ≠ tx.vtid) ∧
    db1.transactions = db.transactions ++ [tx] ∧
    db1.users = db.users.map (createUserEffect s r a nid) := by
  unfold create_transaction_with_escrow at h
  split at h
  · cases h
  · split at h
    · cases h
    · next v hgen =>
      split at h
      · cases h
      · split at h
        · cases h
        · split at h
          · cases h
          · split at h
            · cases h
            · split at h
              · cases h
              · injection h with h'
                rw [Prod.ext_iff] at h'
                obtain ⟨hdb, htx⟩ := h'
                subst hdb
                subst htx
                have hfree : vtidTaken db v = false :=
                  (genUniqueCode_spec (fun k => hexStringOfLen 12 (digest k))
                    (vtidTaken db) fuel 0 v hgen).1
                refine ⟨rfl, rfl, rfl, rfl, rfl, rfl, rfl, rfl, rfl, hgen, ?_, ?_, ?_⟩
                · intro t ht heq
                  have : vtidTaken db v = true := by
                    unfold vtidTaken
                    rw [List.any_eq_true]
                    exact ⟨t, ht, by simp [heq]⟩
                  rw [this] at hfree
                  cases hfree
                · simp [updateUserRow]
                · simp only [updateUserRow, List.map_map]
                  apply List.map_congr_left
                  intro u _
                  by_cases hs : (u.id == s) = true <;>
                    by_cases hr : (u.id == r) = true <;>
                      simp [createUserEffect, Function.comp, hs, hr]

/-- The inserted record of the concrete creation used as C6's witness. -/
def txC6 : TxRow :=
  { id := 1, vtid := "000000000000", sender_id := 10, receiver_id := 20,
    amount := 500, status := .pending,
    conditions := [{ description := "delivered", completed := false }],
    time_limit := 12, created_at := 0, accepted_at := none,
    completed_at := none, cancelled_at := none }

/-- The state after the concrete creation used as C6's witness. -/
def dbC6 : DB :=
  { users :=
      [ { userA with balance := 500, escrow_balance := 500 },
        { userB with unread_transactions := [1] } ],
    transactions := [txC6] }

/-- Witness for C6: a concrete successful creation, with every effect read
off through the theorem. -/
theorem create_success_witness :
    txC6.id = 1 ∧ txC6.sender_id = 10 ∧ txC6.receiver_id = 20 ∧ txC6.amount = 500 ∧
    txC6.status = .pending ∧
    txC6.conditions = [{ description := "delivered", completed := false }] ∧
    txC6.time_limit = 12 ∧ txC6.created_at = 0 ∧ txC6.accepted_at = none ∧
    generate_vtid demoDigest initDB 1 0 = some txC6.vtid ∧
    (∀ t ∈ initDB.transactions, t.vtid ≠ txC6.vtid) ∧
    dbC6.transactions = initDB.transactions ++ [txC6] ∧
    dbC6.users = initDB.users.map (createUserEffect 10 20 500 1) := by
  exact create_transaction_with_escrow_success_effects demoDigest 1 initDB 10 20 500
    [{ description := "delivered", completed := false }] 12 0 1 dbC6 txC6 (by rfl)

/-- Result state of the `cancelled` branch of `update_transaction_status`:
mark the row cancelled, refund the sender from escrow, notify both sides. -/
def cancelApplied (db : DB) (tid : Nat) (tr : TxRow) (now : Int) : DB :=
  let db1 := updateTxRow db tid
    (fun t => { t with status := .cancelled, cancelled_at := some now })
  let db2 := updateUserRow db1 tr.sender_id
    (fun u => { u with balance := u.balance + tr.amount,
                       escrow_balance := u.escrow_balance - tr.amount })
  let notifyBoth : UserRow → UserRow := fun u =>
    if u.id == tr.sender_id || u.id == tr.receiver_id then
      { u with unread_transactions := u.unread_transactions ++ [tid] }
    else u
  { db2 with users := db2.users.map notifyBoth }

lemma update_cancelled_eq (db : DB) (tid : Nat) (now : Int) (tr : TxRow)
    (hfind : findTx db tid = some tr) (hst : tr.status ≠ .cancelled) :
    update_transaction_status db tid .cancelled now
      = .ok (cancelApplied db tid tr now) := by
  simp only [update_transaction_status, hfind]
  rw [if_neg hst]
  rfl

lemma cancelApplied_transactions (db : DB) (tid : Nat) (tr : TxRow) (now : Int) :
    (cancelApplied db tid tr now).transactions
      = db.transactions.map (fun t => if t.id == tid then
          { t with status := .cancelled, cancelled_at := some now } else t) := by
  simp [cancelApplied, updateUserRow, updateTxRow]

lemma cancelApplied_users_triple (db : DB) (tid : Nat) (tr : TxRow) (now : Int) :
    (cancelApplied db tid tr now).users.map balanceTriple
      = db.users.map (fun u => (u.id,
          u.balance + (if u.id == tr.sender_id then tr.amount else 0),
          u.escrow_balance - (if u.id == tr.sender_id then tr.amount else 0))) := by
  simp only [cancelApplied, updateUserRow, updateTxRow, List.map_map]
  apply List.map_congr_left
  intro u _
  by_cases hs : (u.id == tr.sender_id) = true <;>
    by_cases hr : (u.id == tr.receiver_id) = true <;>
      simp [balanceTriple, Function.comp, hs, hr]

lemma find?_map_unrelated (l : List TxRow) (tid hid : Nat) (f : TxRow → TxRow)
    (hpres : ∀ t, (f t).id = t.id) (hne : tid ≠ hid) :
    (l.map (fun t => if t.id == hid then f t else t)).find? (fun t => t.id == tid)
      = l.find? (fun t => t.id == tid) := by
  induction l with
  | nil => rfl
  | cons x xs ih =>
    rw [List.map_cons]
    by_cases hx : x.id = hid
    · have hhead : (if x.id == hid then f x else x) = f x := by simp [hx]
      have h1 : ((f x).id == tid) = false := by
        rw [hpres x, hx]
        simp [Ne.symm hne]
      have h2 : (x.id == tid) = false := by
        rw [hx]
        simp [Ne.symm hne]
      rw [hhead]
      simp only [List.find?, h1, h2]
      exact ih
    · have hhead : (if x.id == hid then f x else x) = x := by simp [hx]
      rw [hhead]
      cases hq : (x.id == tid) with
      | true => simp only [List.find?, hq]
      | false =>
        simp only [List.find?, hq]
        exact ih

lemma find?_id_of_nodup (l : List TxRow) (t : TxRow)
    (hnd : (l.map TxRow.id).Nodup) (ht : t ∈ l) :
    l.find? (fun x => x.id == t.id) = some t := by
  induction l with
  | nil => cases ht
  | cons x xs ih =>
    rw [List.map_cons, List.nodup_cons] at hnd
    rcases List.mem_cons.mp ht with rfl | hmem
    · simp [List.find?]
    · have hx : (x.id == t.id) = false := by
        rw [beq_eq_false_iff_ne]
        intro hxe
        exact hnd.1 (hxe ▸ List.mem_map_of_mem TxRow.id hmem)
      simp only [List.find?, hx]
      exact ih hnd.2 hmem

/-- Total refund a list of cancelled transactions owes a given sender. -/
def refundFor (L : List TxRow) (uid : Nat) : Int :=
  match L with
  | [] => 0
  | t :: ts => (if t.sender_id == uid then t.amount else 0) + refundFor ts uid

lemma sweep_fold_spec (now : Int) :
    ∀ (L : List TxRow) (db : DB),
      (∀ t ∈ L, findTx db t.id = some t ∧ t.status = .pending) →
      (L.map TxRow.id).Nodup →
      ∃ db1,
        L.foldlM (fun acc t => update_transaction_status acc t.id .cancelled now) db
          = .ok db1 ∧
        db1.transactions
          = db.transactions.map (fun t =>
              if t.id ∈ L.map TxRow.id then
                { t with status := .cancelled, cancelled_at := some now } else t) ∧
        db1.users.map balanceTriple
          = db.users.map (fun u => (u.id,
              u.balance + refundFor L u.id, u.escrow_balance - refundFor L u.id)) := by
  intro L
  induction L with
  | nil =>
    intro db _ _
    refine ⟨db, rfl, by simp, by simp [refundFor, balanceTriple]⟩
  | cons hd tl ih =>
    intro db hmem hnd
    rw [List.map_cons, List.nodup_cons] at hnd
    obtain ⟨hfind, hpend⟩ := hmem hd (List.mem_cons_self hd tl)
    have hstep := update_cancelled_eq db hd.id now hd hfind (by rw [hpend]; simp)
    have hmem2 : ∀ t ∈ tl, findTx (cancelApplied db hd.id hd now) t.id = some t ∧
        t.status = .pending := by
      intro t htl
      obtain ⟨hf, hp⟩ := hmem t (List.mem_cons_of_mem hd htl)
      refine ⟨?_, hp⟩
      have hne : t.id ≠ hd.id := by
        intro heq
        exact hnd.1 (heq ▸ List.mem_map_of_mem TxRow.id htl)
      unfold findTx
      rw [cancelApplied_transactions]
      rw [find?_map_unrelated db.transactions t.id hd.id
        (fun t => { t with status := .cancelled, cancelled_at := some now })
        (fun _ => rfl) hne]
      exact hf
    obtain ⟨db1, hfold, htx, hus⟩ := ih (cancelApplied db hd.id hd now) hmem2 hnd.2
    refine ⟨db1, ?_, ?_, ?_⟩
    · rw [List.foldlM_cons, hstep]
      exact hfold
    · rw [htx, cancelApplied_transactions, List.map_map]
      apply List.map_congr_left
      intro t _
      by_cases heq : t.id = hd.id
      · have hnotin : t.id ∉ tl.map TxRow.id := heq ▸ hnd.1
        simp [Function.comp, heq, hnotin]
      · by_cases hin : t.id ∈ tl.map TxRow.id <;>
          simp [Function.comp, heq, hin]
    · rw [hus]
      rw [show (fun u : UserRow => (u.id, u.balance + refundFor tl u.id,
            u.escrow_balance - refundFor tl u.id))
          = (fun p : Nat × Int × Int =>
              (p.1, p.2.1 + refundFor tl p.1, p.2.2 - refundFor tl p.1)) ∘ balanceTriple
        from rfl]
      rw [← List.map_map, cancelApplied_users_triple, List.map_map]
      apply List.map_congr_left
      intro u _
      by_cases hsend : u.id = hd.sender_id
      · simp [Function.comp, refundFor, hsend, add_assoc, sub_sub]
      · have h1 : (u.id == hd.sender_id) = false := by simp [hsend]
        have h2 : (hd.sender_id == u.id) = false := by
          rw [beq_eq_false_iff_ne]
          intro h
          exact hsend h.symm
        simp [Function.comp, refundFor, h1, h2]

/-- C4 amended.  One invocation of `process_expired_transactions` cancels
exactly the transactions whose status is 'pending' and whose
`created_at + time_limit` hours lies before `now`, returning each such
amount from the sender's escrow to the sender's balance; transactions in
any other status — in particular expired 'accepted' ones — are untouched,
and `accepted_at` plays no role in the sweep's deadline. -/
theorem process_expired_transactions_cancels_exactly_expired_pending
    (db : DB) (now : Int) (hnd : (db.transactions.map TxRow.id).Nodup) :
    ∃ db1, process_expired_transactions db now = .ok db1 ∧
      db1.transactions = db.transactions.map (fun t =>
        if isExpiredPendingTx now t then
          { t with status := .cancelled, cancelled_at := some now } else t) ∧
      db1.users.map balanceTriple = db.users.map (fun u => (u.id,
        u.balance + refundFor (db.transactions.filter (isExpiredPendingTx now)) u.id,
        u.escrow_balance
          - refundFor (db.transactions.filter (isExpiredPendingTx now)) u.id)) := by
  have hmem : ∀ t ∈ db.transactions.filter (isExpiredPendingTx now),
      findTx db t.id = some t ∧ t.status = .pending := by
    intro t ht
    have htl : t ∈ db.transactions := List.mem_of_mem_filter ht
    have hpred : isExpiredPendingTx now t = true := List.of_mem_filter ht
    have hpend : t.status = .pending := by
      unfold isExpiredPendingTx at hpred
      have := (Bool.and_eq_true _ _).mp hpred
      simpa using this.1
    exact ⟨find?_id_of_nodup db.transactions t hnd htl, hpend⟩
  have hndL : ((db.transactions.filter (isExpiredPendingTx now)).map TxRow.id).Nodup :=
    hnd.sublist ((List.filter_sublist db.transactions).map TxRow.id)
  obtain ⟨db1, hfold, htx, hus⟩ :=
    sweep_fold_spec now (db.transactions.filter (isExpiredPendingTx now)) db hmem hndL
  refine ⟨db1, hfold, ?_, hus⟩
  rw [htx]
  apply List.map_congr_left
  intro t ht
  by_cases hp : isExpiredPendingTx now t = true
  · have hin : t.id ∈ (db.transactions.filter (isExpiredPendingTx now)).map TxRow.id :=
      List.mem_map_of_mem TxRow.id (List.mem_filter.mpr ⟨ht, hp⟩)
    simp [hin, hp]
  · have hnotin : t.id ∉ (db.transactions.filter (isExpiredPendingTx now)).map TxRow.id := by
      intro hin
      obtain ⟨t', ht', heq⟩ := List.mem_map.mp hin
      have ht'mem : t' ∈ db.transactions := List.mem_of_mem_filter ht'
      have ht'eq : t' = t := List.inj_on_of_nodup_map hnd ht'mem ht heq
      exact hp (ht'eq ▸ List.of_mem_filter ht')
    simp [hnotin, hp]

/-- An accepted transaction whose deadline (from either accepted_at or
created_at) is long past. -/
def acceptedExpiredTx : TxRow :=
  { id := 2, vtid := "DDDDDDDDDDDD", sender_id := 10, receiver_id := 20,
    amount := 500, status := .accepted,
    conditions := [{ description := "delivered", completed := false }],
    time_limit := 1, created_at := 0, accepted_at := some 0,
    completed_at := none, cancelled_at := none }

/-- A state holding the expired accepted transaction, escrow funded. -/
def dbAcceptedExpired : DB :=
  { users :=
      [ { userA with balance := 500, escrow_balance := 500 },
        userB ],
    transactions := [acceptedExpiredTx] }

/-- C4 counterexample.  The claim says the sweep cancels every 'pending' or
'accepted' transaction whose deadline is past; the cursor of
`process_expired_transactions` selects only `status = 'pending'`, so an
expired accepted transaction survives the sweep untouched and the sender's
balance is not restored. -/
theorem expired_accepted_transaction_not_swept :
    acceptedExpiredTx.status = .accepted ∧
    acceptedExpiredTx.accepted_at = some 0 ∧
    (0 : Int) + acceptedExpiredTx.time_limit * hourMs < 10 * hourMs ∧
    process_expired_transactions dbAcceptedExpired (10 * hourMs) = .ok dbAcceptedExpired ∧
    (findTx dbAcceptedExpired 2).map TxRow.status = some .accepted ∧
    (findUser dbAcceptedExpired 10).map UserRow.balance = some 500 := by
  exact ⟨rfl, rfl, by decide, rfl, rfl, rfl⟩

/-- A pending transaction past its creation-based deadline. -/
def pendingExpiredTx : TxRow :=
  { id := 3, vtid := "EEEEEEEEEEEE", sender_id := 10, receiver_id := 20,
    amount := 500, status := .pending,
    conditions := [{ description := "delivered", completed := false }],
    time_limit := 1, created_at := 0, accepted_at := none,
    completed_at := none, cancelled_at := none }

/-- The state holding the expired pending transaction, escrow funded. -/
def dbPendingExpired : DB :=
  { users :=
      [ { userA with balance := 500, escrow_balance := 500 },
        userB ],
    transactions := [pendingExpiredTx] }

/-- Witness for C4's amended sweep characterization on a concrete state
with one expired pending transaction. -/
theorem sweep_characterization_witness :
    (dbPendingExpired.transactions.map TxRow.id).Nodup ∧
    ∃ db1, process_expired_transactions dbPendingExpired (10 * hourMs) = .ok db1 ∧
      db1.transactions = dbPendingExpired.transactions.map (fun t =>
        if isExpiredPendingTx (10 * hourMs) t then
          { t with status := .cancelled, cancelled_at := some (10 * hourMs) } else t) ∧
      db1.users.map balanceTriple = dbPendingExpired.users.map (fun u => (u.id,
        u.balance
          + refundFor (dbPendingExpired.transactions.filter
              (isExpiredPendingTx (10 * hourMs))) u.id,
        u.escrow_balance
          - refundFor (dbPendingExpired.transactions.filter
              (isExpiredPendingTx (10 * hourMs))) u.id)) := by
  refine ⟨by decide, ?_⟩
  exact process_expired_transactions_cancels_exactly_expired_pending
    dbPendingExpired (10 * hourMs) (by decide)

end Vaultpay
